import Mathlib

/-!
Verification development for the escape-to-safe-slug name migration tool.

The Python sources `escape_to_safe_slug.py` and `processing_dir.py` are
shallowly embedded below.  Python strings are modelled as Lean `String`
(sequences of Unicode code points, matching Python `str`), bytes as `Nat`
values below 256, and code that can raise an exception returns
`Except String α` whose error value carries the Python exception message.
-/

/-! ## Character classes (the tuples and regex classes of the source) -/

/-- Model of membership in `string.ascii_lowercase` / the tuple `_alpha_lower`. -/
def isLowerAlpha (c : Char) : Bool := 'a' ≤ c && c ≤ 'z'

/-- Model of membership in `string.digits`. -/
def isDigitCh (c : Char) : Bool := '0' ≤ c && c ≤ '9'

/-- Model of membership in the tuple `_alphanum_lower` (lowercase letters and digits),
which is also the regex character class `[a-z0-9]` of `_non_alphanum_pattern`. -/
def isLowerAlnum (c : Char) : Bool := isLowerAlpha c || isDigitCh c

/-- The regex character class `[a-z0-9\-]` of `_object_pattern`. -/
def isObjChar (c : Char) : Bool := isLowerAlnum c || c == '-'

/-- Model of membership in `string.hexdigits` (`0-9a-fA-F`). -/
def hexDigitB (c : Char) : Bool :=
  ('0' ≤ c && c ≤ '9') || ('a' ≤ c && c ≤ 'f') || ('A' ≤ c && c ≤ 'F')

/-- Lowercase hexadecimal digit (`0-9a-f`), the alphabet of `hexdigest` output. -/
def isLowerHex (c : Char) : Bool := isDigitCh c || ('a' ≤ c && c ≤ 'f')

/-- Numeric value of one hexadecimal digit, as used by `int(hex_value, 16)`.
Characters outside `string.hexdigits` are mapped to 0; every call site guards
with `hexDigitB` first, as the source guards with `c in string.hexdigits`. -/
def hexVal (c : Char) : Nat :=
  if '0' ≤ c && c ≤ '9' then c.toNat - 48
  else if 'a' ≤ c && c ≤ 'f' then c.toNat - 87
  else if 'A' ≤ c && c ≤ 'F' then c.toNat - 55
  else 0

/-- Model of Python `str.lower` restricted to ASCII: maps `A`-`Z` to `a`-`z` and
leaves every other code point unchanged.  (Python's full Unicode case mapping
differs on a few exotic code points, e.g. U+0130; no statement below depends on
those, because every character that is not already `[a-z0-9]` after lowering is
replaced by `-` in the slug pipeline, and the escape pipeline only lowercases
pure-ASCII strings.) -/
def pyLower (c : Char) : Char :=
  if 'A' ≤ c && c ≤ 'Z' then Char.ofNat (c.toNat + 32) else c

/-- Python `str.lower` on a whole string. -/
def pyLowerStr (s : String) : String := String.mk (s.data.map pyLower)

/-- Concatenation of the lists produced for each element (`List.flatMap`),
used to model string-building loops that append several pieces per element. -/
def catMap (f : α → List β) : List α → List β
  | [] => []
  | a :: t => f a ++ catMap f t

/-- UTF-8 encoding of one code point, as produced by Python `str.encode("utf8")`. -/
def utf8Bytes (c : Char) : List Nat :=
  let n := c.toNat
  if n < 128 then [n]
  else if n < 2048 then [192 + n / 64, 128 + n % 64]
  else if n < 65536 then [224 + n / 4096, 128 + (n / 64) % 64, 128 + n % 64]
  else [240 + n / 262144, 128 + (n / 4096) % 64, 128 + (n / 64) % 64, 128 + n % 64]

/-- UTF-8 encoding of a whole string (`s.encode("utf8")`). -/
def utf8Encode (s : String) : List Nat := catMap utf8Bytes s.data

/-- Uppercase hexadecimal digit characters, for Python format spec `X`. -/
def hexUChar (n : Nat) : Char :=
  match n with
  | 0 => '0' | 1 => '1' | 2 => '2' | 3 => '3' | 4 => '4'
  | 5 => '5' | 6 => '6' | 7 => '7' | 8 => '8' | 9 => '9'
  | 10 => 'A' | 11 => 'B' | 12 => 'C' | 13 => 'D' | 14 => 'E' | _ => 'F'

/-- Lowercase hexadecimal digit characters, for `hexdigest` (format spec `x`). -/
def hexCharL (n : Nat) : Char :=
  match n with
  | 0 => '0' | 1 => '1' | 2 => '2' | 3 => '3' | 4 => '4'
  | 5 => '5' | 6 => '6' | 7 => '7' | 8 => '8' | 9 => '9'
  | 10 => 'a' | 11 => 'b' | 12 => 'c' | 13 => 'd' | 14 => 'e' | _ => 'f'

/-- Model of the Python format expression `f"{n:X}"` on the byte domain of its
only call site (`n < 256`, one byte of a UTF-8 encoding): minimal-width
uppercase hexadecimal with NO zero padding, so values below 16 yield a single
digit and values 16-255 yield two. -/
def hexUpperRep (n : Nat) : List Char :=
  if n < 16 then [hexUChar n] else [hexUChar (n / 16 % 16), hexUChar (n % 16)]

/-! ## Escape codec (`escape_to_safe_slug.py` lines 1-79) -/

/-- `string.ascii_lowercase` as a list. -/
def lowercaseChars : List Char := "abcdefghijklmnopqrstuvwxyz".data

/-- `string.ascii_uppercase` as a list. -/
def uppercaseChars : List Char := "ABCDEFGHIJKLMNOPQRSTUVWXYZ".data

/-- `string.digits` as a list. -/
def digitChars : List Char := "0123456789".data

/-- Module constant `SAFE = set(string.ascii_letters + string.digits)`. -/
def SAFE : List Char := lowercaseChars ++ uppercaseChars ++ digitChars

/-- Module constant `_escape_slug_safe_chars = set(string.ascii_lowercase + string.digits)`. -/
def _escape_slug_safe_chars : List Char := lowercaseChars ++ digitChars

/-- Module constant `ESCAPE_CHAR = "-"`. -/
def ESCAPE_CHAR : Char := '-'

/-- Module constant `_hash_length = 8`. -/
def _hash_length : Nat := 8

/-- The list of characters emitted by `_escape_char(c, escape_char)`:
for each byte of the UTF-8 encoding of `c`, the escape character followed by
`f"{byte:X}"` (unpadded uppercase hex). -/
def _escape_char_chars (c escape_char : Char) : List Char :=
  catMap (fun b => escape_char :: hexUpperRep b) (utf8Bytes c)

/-- Source function `_escape_char(c, escape_char)`. -/
def _escape_char (c escape_char : Char) : String :=
  String.mk (_escape_char_chars c escape_char)

/-- The character-classification loop of `escape`: safe characters are copied
verbatim, all others are replaced by `_escape_char`. -/
def escapeChars (safe : List Char) (escape_char : Char) (l : List Char) : List Char :=
  catMap (fun c => if safe.contains c then [c] else _escape_char_chars c escape_char) l

/-- Source function `escape(to_escape, safe, escape_char, allow_collisions)`.

If `allow_collisions` is true the escape character is added to the safe set.
Otherwise, if the escape character is in the safe set, the source executes
`warnings.warn(...)` — but the module never imports `warnings`, so that branch
raises `NameError` instead of warning; the error value records this. -/
def escape (to_escape : String) (safe : List Char := SAFE)
    (escape_char : Char := ESCAPE_CHAR) (allow_collisions : Bool := false) :
    Except String String :=
  if allow_collisions then
    Except.ok (String.mk (escapeChars (escape_char :: safe) escape_char to_escape.data))
  else if safe.contains escape_char then
    Except.error "NameError: name warnings is not defined"
  else
    Except.ok (String.mk (escapeChars safe escape_char to_escape.data))

/-- Source function `escape_slug(name)`: the legacy encoder — `escape` with the
lowercase-alphanumeric safe set and marker `-`, then `.lower()` (which also
lowercases the emitted uppercase hex digits). -/
def escape_slug (name : String) : Except String String :=
  Except.map pyLowerStr (escape name _escape_slug_safe_chars '-' false)

/-- The scanning loop of `revert_escape`.  On the escape character, the two
following characters are read (`escaped_str[i+1:i+3]`); if both are hex digits
the byte they denote is decoded via `bytes([byte_value]).decode("utf-8")`,
which succeeds only for bytes below 0x80 — a byte 0x80-0xFF is not valid UTF-8
on its own, so Python raises `UnicodeDecodeError` (the source decodes each
escaped byte in isolation, never accumulating a multi-byte sequence). -/
def revert_escape_aux (escape_char : Char) : List Char → Except String (List Char)
  | [] => Except.ok []
  | c :: h1 :: h2 :: rest2 =>
    if c == escape_char && hexDigitB h1 && hexDigitB h2 then
      let byte_value := hexVal h1 * 16 + hexVal h2
      if byte_value < 128 then
        Except.map (fun tail => Char.ofNat byte_value :: tail)
          (revert_escape_aux escape_char rest2)
      else
        Except.error "UnicodeDecodeError"
    else
      Except.map (fun tail => c :: tail) (revert_escape_aux escape_char (h1 :: h2 :: rest2))
  | c :: rest =>
    Except.map (fun tail => c :: tail) (revert_escape_aux escape_char rest)

/-- Source function `revert_escape(escaped_str, escape_char)`. -/
def revert_escape (escaped_str : String) (escape_char : Char := ESCAPE_CHAR) :
    Except String String :=
  Except.map String.mk (revert_escape_aux escape_char escaped_str.data)

/-! ## SHA-256 (the `hashlib.sha256(...).hexdigest()` primitive used by `strip_and_hash`)

A direct implementation of FIPS 180-4 over byte lists, with 32-bit words as
`Nat` reduced modulo `2^32` after every arithmetic step. -/

/-- Reduction to a 32-bit word. -/
def w32 (n : Nat) : Nat := n % 4294967296

/-- Right rotation of a 32-bit word by `k` bits. -/
def rotr32 (k x : Nat) : Nat := w32 ((x >>> k) ||| (x <<< (32 - k)))

/-- Bitwise complement of a 32-bit word. -/
def not32 (x : Nat) : Nat := x ^^^ 4294967295

def sha256Ch (x y z : Nat) : Nat := (x &&& y) ^^^ (not32 x &&& z)

def sha256Maj (x y z : Nat) : Nat := (x &&& y) ^^^ (x &&& z) ^^^ (y &&& z)

def bigSigma0 (x : Nat) : Nat := rotr32 2 x ^^^ rotr32 13 x ^^^ rotr32 22 x

def bigSigma1 (x : Nat) : Nat := rotr32 6 x ^^^ rotr32 11 x ^^^ rotr32 25 x

def smallSigma0 (x : Nat) : Nat := rotr32 7 x ^^^ rotr32 18 x ^^^ (x >>> 3)

def smallSigma1 (x : Nat) : Nat := rotr32 17 x ^^^ rotr32 19 x ^^^ (x >>> 10)

/-- The eight 32-bit state words of SHA-256. -/
structure Sha256State where
  w0 : Nat
  w1 : Nat
  w2 : Nat
  w3 : Nat
  w4 : Nat
  w5 : Nat
  w6 : Nat
  w7 : Nat

/-- Initial hash value H(0) of SHA-256 (FIPS 180-4 section 5.3.3, here written
in decimal). -/
def sha256Init : Sha256State :=
  ⟨1779033703, 3144134277, 1013904242, 2773480762,
   1359893119, 2600822924, 528734635, 1541459225⟩

/-- The 64 round constants K of SHA-256 (FIPS 180-4 section 4.2.2, in decimal). -/
def sha256K : List Nat :=
  [1116352408, 1899447441, 3049323471, 3921009573, 961987163,
   1508970993, 2453635748, 2870763221, 3624381080, 310598401,
   607225278, 1426881987, 1925078388, 2162078206, 2614888103,
   3248222580, 3835390401, 4022224774, 264347078, 604807628,
   770255983, 1249150122, 1555081692, 1996064986, 2554220882,
   2821834349, 2952996808, 3210313671, 3336571891, 3584528711,
   113926993, 338241895, 666307205, 773529912, 1294757372,
   1396182291, 1695183700, 1986661051, 2177026350, 2456956037,
   2730485921, 2820302411, 3259730800, 3345764771, 3516065817,
   3600352804, 4094571909, 275423344, 430227734, 506948616,
   659060556, 883997877, 958139571, 1322822218, 1537002063,
   1747873779, 1955562222, 2024104815, 2227730452, 2361852424,
   2428436474, 2756734187, 3204031479, 3329325298]

/-- Big-endian 32-bit words from a list of bytes (whole 4-byte groups). -/
def bytesToWords : List Nat → List Nat
  | b0 :: b1 :: b2 :: b3 :: rest =>
    (b0 * 16777216 + b1 * 65536 + b2 * 256 + b3) :: bytesToWords rest
  | _ => []

/-- Extend the 16 message words to the 64-entry message schedule. -/
def sha256Schedule (ws : List Nat) : List Nat :=
  (List.range 48).foldl
    (fun acc _ =>
      let n := acc.length
      acc ++ [w32 (smallSigma1 (acc.getD (n - 2) 0) + acc.getD (n - 7) 0 +
                   smallSigma0 (acc.getD (n - 15) 0) + acc.getD (n - 16) 0)])
    ws

/-- The working variables a-h of one compression round. -/
structure Sha256Regs where
  a : Nat
  b : Nat
  c : Nat
  d : Nat
  e : Nat
  f : Nat
  g : Nat
  h : Nat

/-- One SHA-256 round: `wk` is the pair (schedule word, round constant). -/
def sha256Round (r : Sha256Regs) (wk : Nat × Nat) : Sha256Regs :=
  let t1 := w32 (r.h + bigSigma1 r.e + sha256Ch r.e r.f r.g + wk.2 + wk.1)
  let t2 := w32 (bigSigma0 r.a + sha256Maj r.a r.b r.c)
  ⟨w32 (t1 + t2), r.a, r.b, r.c, w32 (r.d + t1), r.e, r.f, r.g⟩

/-- Compression of one 64-byte block into the running state. -/
def sha256Compress (st : Sha256State) (block : List Nat) : Sha256State :=
  let w := sha256Schedule (bytesToWords block)
  let fin := (w.zip sha256K).foldl sha256Round
    ⟨st.w0, st.w1, st.w2, st.w3, st.w4, st.w5, st.w6, st.w7⟩
  ⟨w32 (st.w0 + fin.a), w32 (st.w1 + fin.b), w32 (st.w2 + fin.c), w32 (st.w3 + fin.d),
   w32 (st.w4 + fin.e), w32 (st.w5 + fin.f), w32 (st.w6 + fin.g), w32 (st.w7 + fin.h)⟩

/-- Big-endian 8-byte encoding of the message bit length. -/
def lenBytes64 (n : Nat) : List Nat :=
  [(n >>> 56) % 256, (n >>> 48) % 256, (n >>> 40) % 256, (n >>> 32) % 256,
   (n >>> 24) % 256, (n >>> 16) % 256, (n >>> 8) % 256, n % 256]

/-- SHA-256 padding: a 0x80 byte, zero bytes to 56 mod 64, then the bit length. -/
def sha256Pad (msg : List Nat) : List Nat :=
  let L := msg.length
  msg ++ [128] ++ List.replicate ((64 - ((L + 9) % 64)) % 64) 0 ++ lenBytes64 (8 * L)

/-- Split a byte list into 64-byte blocks. -/
def chunks64 : List Nat → List (List Nat)
  | [] => []
  | b :: rest => (b :: rest).take 64 :: chunks64 ((b :: rest).drop 64)
termination_by l => l.length
decreasing_by simp [List.length_drop]; omega

/-- Serialize the final state to the 32 digest bytes, big-endian per word. -/
def sha256Serialize (st : Sha256State) : List Nat :=
  [(st.w0 >>> 24) % 256, (st.w0 >>> 16) % 256, (st.w0 >>> 8) % 256, st.w0 % 256,
   (st.w1 >>> 24) % 256, (st.w1 >>> 16) % 256, (st.w1 >>> 8) % 256, st.w1 % 256,
   (st.w2 >>> 24) % 256, (st.w2 >>> 16) % 256, (st.w2 >>> 8) % 256, st.w2 % 256,
   (st.w3 >>> 24) % 256, (st.w3 >>> 16) % 256, (st.w3 >>> 8) % 256, st.w3 % 256,
   (st.w4 >>> 24) % 256, (st.w4 >>> 16) % 256, (st.w4 >>> 8) % 256, st.w4 % 256,
   (st.w5 >>> 24) % 256, (st.w5 >>> 16) % 256, (st.w5 >>> 8) % 256, st.w5 % 256,
   (st.w6 >>> 24) % 256, (st.w6 >>> 16) % 256, (st.w6 >>> 8) % 256, st.w6 % 256,
   (st.w7 >>> 24) % 256, (st.w7 >>> 16) % 256, (st.w7 >>> 8) % 256, st.w7 % 256]

/-- `hashlib.sha256(msg).digest()`: the 32 digest bytes of a byte message. -/
def sha256Bytes (msg : List Nat) : List Nat :=
  sha256Serialize ((chunks64 (sha256Pad msg)).foldl sha256Compress sha256Init)

/-- Two lowercase hex characters for one byte, high nibble first (`"%02x"`). -/
def byteHexL (b : Nat) : List Char := [hexCharL (b / 16), hexCharL (b % 16)]

/-- `hashlib.sha256(msg).hexdigest()` as a character list: 64 lowercase hex digits. -/
def sha256Hex (msg : List Nat) : List Char := catMap byteHexL (sha256Bytes msg)

/-! ## Slug derivation (`escape_to_safe_slug.py` lines 82-123) -/

/-- Replacement for one character under `_non_alphanum_pattern.sub("-", ...)`:
characters in `[a-z0-9]` survive, all others turn into a hyphen. -/
def dashify (c : Char) : Char := if isLowerAlnum c then c else '-'

/-- Collapse every run of consecutive hyphens to a single hyphen. -/
def squashDashes : List Char → List Char
  | [] => []
  | [c] => [c]
  | c :: d :: t =>
    if c == '-' && d == '-' then squashDashes (d :: t)
    else c :: squashDashes (d :: t)

/-- Model of `_non_alphanum_pattern.sub("-", l)`: the regex replaces each
maximal run of characters outside `[a-z0-9]` by a single `-`, which equals
mapping every non-alphanumeric character to `-` and collapsing hyphen runs
(characters in `[a-z0-9]` are never `-`, so the collapsed runs are exactly
the images of the maximal non-alphanumeric runs). -/
def pySubNonAlnum (l : List Char) : List Char := squashDashes (l.map dashify)

/-- Python `str.rstrip("-")`: drop trailing hyphens. -/
def rstripDash (l : List Char) : List Char :=
  (l.reverse.dropWhile (fun c => c == '-')).reverse

/-- Python `s.startswith(tuple_of_chars)`: the first character satisfies `p`. -/
def firstCharB (p : Char → Bool) : List Char → Bool
  | [] => false
  | c :: _ => p c

/-- Python `s.endswith(tuple_of_chars)`: the last character satisfies `p`. -/
def lastCharB (p : Char → Bool) : List Char → Bool
  | [] => false
  | [c] => p c
  | _ :: d :: t => lastCharB p (d :: t)

/-- The character-list body of `_extract_safe_name(name, max_length)`:
lowercase, replace non-alphanumeric runs with `-`, `lstrip("-")`, truncate to
`max_length`, `rstrip("-")`; if nonempty and not starting with a lowercase
letter, prefix `"x-"` over the first `max_length - 2` characters; if empty,
the placeholder `x`.  (Python evaluates `safe_name[: max_length - 2]` with a
negative bound when `max_length < 2`; on a string already truncated to
`max_length` characters this coincides with `take (max_length - 2)` in
truncated `Nat` subtraction.) -/
def _extract_core (name : String) (max_length : Nat) : List Char :=
  let sn0 := pySubNonAlnum (pyLowerStr name).data
  let sn1 := rstripDash ((sn0.dropWhile (fun c => c == '-')).take max_length)
  let sn2 :=
    if !sn1.isEmpty && !firstCharB isLowerAlpha sn1 then
      'x' :: '-' :: sn1.take (max_length - 2)
    else sn1
  if sn2.isEmpty then ['x'] else sn2

/-- Source function `_extract_safe_name(name, max_length)`. -/
def _extract_safe_name (name : String) (max_length : Nat) : String :=
  String.mk (_extract_core name max_length)

/-- The eight-character fingerprint `hashlib.sha256(name.encode("utf8")).hexdigest()[:_hash_length]`. -/
def nameHashChars (name : String) : List Char :=
  (sha256Hex (utf8Encode name)).take _hash_length

/-- Source function `strip_and_hash(name, max_length)` (default 32): raises
`ValueError` when the name budget `max_length - (_hash_length + 3)` is below 1,
else joins the safe core and the fingerprint as `f"{safe_name}---{name_hash}"`. -/
def strip_and_hash (name : String) (max_length : Nat := 32) : Except String String :=
  let name_length := max_length - (_hash_length + 3)
  if name_length < 1 then
    Except.error "ValueError: Cannot make safe names shorter than 12"
  else
    Except.ok (String.mk
      (_extract_core name name_length ++ ('-' :: '-' :: '-' :: nameHashChars name)))

/-! ## Validity predicates (`escape_to_safe_slug.py` lines 125-187) -/

/-- Truthiness of an optional integer argument (`if min_length and ...`):
`None` and `0` are falsy. -/
def truthyNat : Option Nat → Bool
  | none => false
  | some n => n != 0

/-- Model of `pattern.match(s)` for an anchored pattern `^[class]+$`: the regex
matches the whole string, except that Python's `$` also matches just before a
single final newline, so a string of class characters followed by one `\n`
also matches. -/
def reFullMatchDollar (cls : Char → Bool) (l : List Char) : Bool :=
  (!l.isEmpty && l.all cls) ||
  (l.getLast? == some '\n' && !l.dropLast.isEmpty && l.dropLast.all cls)

/-- Source function `_is_valid_general(s, starts_with, ends_with, pattern,
min_length, max_length)`: each check is skipped when its argument is falsy. -/
def _is_valid_general (s : String) (starts_with ends_with : Option (Char → Bool))
    (pattern : Option (List Char → Bool)) (min_length max_length : Option Nat) : Bool :=
  if truthyNat min_length && decide (s.length < min_length.getD 0) then false
  else if truthyNat max_length && decide (s.length > max_length.getD 0) then false
  else if starts_with.isSome && !firstCharB (starts_with.getD (fun _ => true)) s.data then false
  else if ends_with.isSome && !lastCharB (ends_with.getD (fun _ => true)) s.data then false
  else if pattern.isSome && !(pattern.getD (fun _ => true)) s.data then false
  else true

/-- Source function `is_valid_object_name(s)`: `_is_valid_general` with
`starts_with=_alpha_lower`, `ends_with=_alphanum_lower`,
`pattern=_object_pattern`, `max_length=63`, `min_length=1`. -/
def is_valid_object_name (s : String) : Bool :=
  _is_valid_general s (some isLowerAlpha) (some isLowerAlnum)
    (some (reFullMatchDollar isObjChar)) (some 1) (some 63)

/-- Source function `is_valid_default(s)` (same as `is_valid_object_name`). -/
def is_valid_default (s : String) : Bool := is_valid_object_name s

/-- Source function `is_valid_label(s)`.  The empty string returns `True`
immediately; for any other string the source evaluates the undefined module
name `_alphanum` (only `_alpha_lower` and `_alphanum_lower` are defined) while
building the arguments of `_is_valid_general`, so Python raises `NameError`. -/
def is_valid_label (s : String) : Except String Bool :=
  if s.isEmpty then Except.ok true
  else Except.error "NameError: name _alphanum is not defined"

/-! ## Slug selection (`escape_to_safe_slug.py` lines 190-208) -/

/-- Python substring test `pat in l` (`"--" in name`). -/
def hasInfix (pat : List Char) : List Char → Bool
  | [] => pat.isEmpty
  | c :: t => pat.isPrefixOf (c :: t) || hasInfix pat t

/-- The literal substring `"--"`. -/
def dashDash : List Char := ['-', '-']

/-- Python `max_length or 32`: `None` and `0` give the default 32. -/
def orDefault32 : Option Nat → Nat
  | none => 32
  | some n => if n == 0 then 32 else n

/-- Python `max_length is None or len(name) <= max_length`. -/
def lenWithin (s : String) : Option Nat → Bool
  | none => true
  | some m => decide (s.length ≤ m)

/-- Source function `safe_slug(name, is_valid, max_length)`: names containing
`"--"` always take the hash fallback; otherwise a valid name within the
(optional, default `None`) maximum length is returned unchanged, and
everything else takes the hash fallback with budget `max_length or 32`. -/
def safe_slug (name : String) (is_valid : String → Bool := is_valid_default)
    (max_length : Option Nat := none) : Except String String :=
  if hasInfix dashDash name.data then strip_and_hash name (orDefault32 max_length)
  else if is_valid name && lenWithin name max_length then Except.ok name
  else strip_and_hash name (orDefault32 max_length)

/-! ## Migration planner (`processing_dir.py`) -/

/-- Model of `posixpath.join(a, b)` for the two-argument calls of the source. -/
def pathJoin (a b : String) : String :=
  if b.startsWith "/" then b
  else if a == "" || a.endsWith "/" then a ++ b
  else a ++ "/" ++ b

/-- Python `str.rstrip("/")`, used by `posixpath.dirname`. -/
def rstripSlash (l : List Char) : List Char :=
  (l.reverse.dropWhile (fun c => c == '/')).reverse

/-- Model of `posixpath.dirname(p)`: everything before the final slash, with
trailing slashes stripped unless the head is all slashes. -/
def dirname (p : String) : String :=
  let i := (p.data.reverse.findIdx? (fun c => c == '/')).map (fun k => p.data.length - k)
  match i with
  | none => ""
  | some n =>
    let head := p.data.take n
    if head.all (fun c => c == '/') then String.mk head
    else String.mk (rstripSlash head)

/-- Source function `is_old_schema(name)`: decode with `revert_escape`,
re-encode with `escape_slug`, compare; any exception is caught and yields
`False`. -/
def is_old_schema (name : String) : Bool :=
  match revert_escape name '-' with
  | Except.error _ => false
  | Except.ok user_name =>
    match escape_slug user_name with
    | Except.error _ => false
    | Except.ok escaped_name => name == escaped_name

/-- The plan computed for one directory entry by `process_subdir_name`. -/
inductive Plan where
  | skipCurrent
  | skipNoop
  | mergeOldHome
  | renameDirect

/-- A filesystem mutation attempted by `process_subdir_name`. -/
inductive FsOp where
  | move (src dest : String)
  | rename (src dest : String)

/-- Source function `process_subdir_name(name, path, force)`.

The filesystem is modelled as the list `fs` of existing directory paths
(every entry under a `prod` directory is a directory, so `os.path.exists`
and `os.path.isdir` are both membership).  The returned list holds the
mutating calls actually issued: both `shutil.move` and `os.rename` sit behind
`if force:` in the source, so a dry run issues none.  Print statements are
not modelled.  The `Except.error` branches mirror exceptions the source would
not catch (they are unreachable when `is_old_schema name` is true). -/
def process_subdir_name (fs : List String) (name path : String) (force : Bool) :
    Except String (Plan × List FsOp) :=
  if is_old_schema name then
    Except.bind (revert_escape name '-') (fun user_name =>
      Except.bind (safe_slug user_name) (fun new_name =>
        let new_name_path := pathJoin (dirname path) new_name
        if new_name_path == path then Except.ok (Plan.skipNoop, [])
        else if fs.contains new_name_path then
          let dest := pathJoin new_name_path name
          Except.ok (Plan.mergeOldHome,
            if force then
              [FsOp.move path dest, FsOp.rename dest (pathJoin new_name_path "_old_home")]
            else [])
        else
          Except.ok (Plan.renameDirect,
            if force then [FsOp.rename path new_name_path] else [])))
  else Except.ok (Plan.skipCurrent, [])

/-! ## Helper lemmas -/

theorem mem_catMap {α β : Type} {f : α → List β} {b : β} {l : List α}
    (h : b ∈ catMap f l) : ∃ a, a ∈ l ∧ b ∈ f a := by
  induction l with
  | nil => simp [catMap] at h
  | cons a t ih =>
    simp only [catMap, List.mem_append] at h
    rcases h with h | h
    · exact ⟨a, by simp, h⟩
    · rcases ih h with ⟨a2, ha, hb⟩
      exact ⟨a2, by simp [ha], hb⟩

theorem mem_of_take {α : Type} {a : α} {l : List α} {n : Nat} (h : a ∈ l.take n) : a ∈ l :=
  List.mem_of_mem_take h

theorem mem_of_dropWhileB {α : Type} {p : α → Bool} {a : α} {l : List α}
    (h : a ∈ l.dropWhile p) : a ∈ l :=
  (List.dropWhile_sublist p).subset h

theorem mem_of_rstripDash {a : Char} {l : List Char} (h : a ∈ rstripDash l) : a ∈ l := by
  unfold rstripDash at h
  rw [List.mem_reverse] at h
  have h2 := mem_of_dropWhileB h
  rwa [List.mem_reverse] at h2

theorem mem_squashDashes {a : Char} : ∀ l : List Char, a ∈ squashDashes l → a ∈ l := by
  intro l
  induction l with
  | nil => simp [squashDashes]
  | cons c t ih =>
    cases t with
    | nil => simp [squashDashes]
    | cons d t2 =>
      simp only [squashDashes]
      split
      · intro h
        exact List.mem_cons_of_mem c (ih h)
      · intro h
        rcases List.mem_cons.mp h with h | h
        · simp [h]
        · exact List.mem_cons_of_mem c (ih h)

theorem isObjChar_dashify (c : Char) : isObjChar (dashify c) = true := by
  unfold dashify
  split
  · rename_i h
    simp [isObjChar, h]
  · decide

theorem length_rstripDash_le (l : List Char) : (rstripDash l).length ≤ l.length := by
  unfold rstripDash
  rw [List.length_reverse]
  calc (l.reverse.dropWhile (fun c => c == '-')).length
      ≤ l.reverse.length := (List.dropWhile_sublist _).length_le
    _ = l.length := List.length_reverse l

theorem isLowerHex_hexCharL (n : Nat) : isLowerHex (hexCharL n) = true := by
  unfold hexCharL
  split <;> decide

theorem isLowerAlnum_of_isLowerHex {c : Char} (h : isLowerHex c = true) :
    isLowerAlnum c = true := by
  unfold isLowerHex at h
  simp only [Bool.or_eq_true] at h
  unfold isLowerAlnum isLowerAlpha
  rcases h with h | h
  · simp [h]
  · simp only [Bool.and_eq_true] at h
    have hz : c ≤ 'z' := le_trans (of_decide_eq_true h.2) (by decide)
    simp [h.1, decide_eq_true_eq.mpr hz]

theorem isObjChar_of_isLowerAlnum {c : Char} (h : isLowerAlnum c = true) :
    isObjChar c = true := by
  simp [isObjChar, h]

theorem length_catMap_byteHexL (l : List Nat) : (catMap byteHexL l).length = 2 * l.length := by
  induction l with
  | nil => simp [catMap]
  | cons b t ih =>
    simp [catMap, byteHexL, List.length_append, ih]
    omega

theorem length_sha256Serialize (st : Sha256State) : (sha256Serialize st).length = 32 := rfl

theorem length_sha256Bytes (msg : List Nat) : (sha256Bytes msg).length = 32 := by
  unfold sha256Bytes
  exact length_sha256Serialize _

theorem length_nameHashChars (name : String) : (nameHashChars name).length = 8 := by
  unfold nameHashChars sha256Hex _hash_length
  rw [List.length_take, length_catMap_byteHexL, length_sha256Bytes]
  omega

theorem nameHashChars_hex (name : String) :
    ∀ c ∈ nameHashChars name, isLowerHex c = true := by
  intro c hc
  unfold nameHashChars at hc
  have h1 := mem_of_take hc
  unfold sha256Hex at h1
  rcases mem_catMap h1 with ⟨b, _, hb⟩
  unfold byteHexL at hb
  rcases List.mem_cons.mp hb with h | h
  · rw [h]
    exact isLowerHex_hexCharL _
  · rcases List.mem_cons.mp h with h | h
    · rw [h]
      exact isLowerHex_hexCharL _
    · simp at h

theorem firstCharB_append (p : Char → Bool) (l m : List Char)
    (h : firstCharB p l = true) : firstCharB p (l ++ m) = true := by
  cases l with
  | nil => simp [firstCharB] at h
  | cons c t => simpa [firstCharB] using h

theorem lastCharB_append (p : Char → Bool) (l m : List Char)
    (hm : lastCharB p m = true) : lastCharB p (l ++ m) = true := by
  induction l with
  | nil => simpa using hm
  | cons c t ih =>
    cases h : t ++ m with
    | nil =>
      have hm0 : m = [] := (List.append_eq_nil.mp h).2
      rw [hm0] at hm
      simp [lastCharB] at hm
    | cons d t2 =>
      have ih2 := ih
      rw [h] at ih2
      show lastCharB p (c :: (t ++ m)) = true
      rw [h]
      simpa [lastCharB] using ih2

theorem lastCharB_of_all (p : Char → Bool) (l : List Char) (hne : l ≠ [])
    (h : ∀ c ∈ l, p c = true) : lastCharB p l = true := by
  induction l with
  | nil => exact absurd rfl hne
  | cons c t ih =>
    cases t with
    | nil =>
      simpa [lastCharB] using h c (by simp)
    | cons d t2 =>
      show lastCharB p (c :: d :: t2) = true
      have := ih (by simp) (fun x hx => h x (List.mem_cons_of_mem c hx))
      simpa [lastCharB] using this

theorem pySubNonAlnum_obj (l : List Char) :
    ∀ c ∈ pySubNonAlnum l, isObjChar c = true := by
  intro c hc
  unfold pySubNonAlnum at hc
  have h1 := mem_squashDashes _ hc
  rcases List.mem_map.mp h1 with ⟨d, _, rfl⟩
  exact isObjChar_dashify d

theorem extract_core_obj (name : String) (n : Nat) :
    ∀ c ∈ _extract_core name n, isObjChar c = true := by
  intro c hc
  unfold _extract_core at hc
  simp only [] at hc
  have sub1 : ∀ c ∈ rstripDash (((pySubNonAlnum (pyLowerStr name).data).dropWhile
      (fun c => c == '-')).take n), isObjChar c = true := by
    intro c hc
    exact pySubNonAlnum_obj _ _ (mem_of_dropWhileB (mem_of_take (mem_of_rstripDash hc)))
  split at hc
  · rw [if_neg (by simp)] at hc
    rcases List.mem_cons.mp hc with rfl | hc
    · decide
    · rcases List.mem_cons.mp hc with rfl | hc
      · decide
      · exact sub1 c (mem_of_take hc)
  · split at hc
    · rcases List.mem_singleton.mp hc with rfl
      decide
    · exact sub1 c hc

theorem extract_core_head (name : String) (n : Nat) :
    firstCharB isLowerAlpha (_extract_core name n) = true := by
  unfold _extract_core
  simp only []
  split
  · rw [if_neg (by simp)]
    rfl
  · rename_i hcond
    split
    · decide
    · rename_i hne
      by_cases hfc : firstCharB isLowerAlpha (rstripDash
          (((pySubNonAlnum (pyLowerStr name).data).dropWhile (fun c => c == '-')).take n)) = true
      · exact hfc
      · simp only [Bool.not_eq_true] at hne hfc
        exact absurd (by simp [hne, hfc]) hcond

theorem extract_core_length (name : String) (n : Nat) (hn : 2 ≤ n) :
    (_extract_core name n).length ≤ n := by
  unfold _extract_core
  simp only []
  have hsn1 : (rstripDash (((pySubNonAlnum (pyLowerStr name).data).dropWhile
      (fun c => c == '-')).take n)).length ≤ n := by
    calc (rstripDash _).length
        ≤ (((pySubNonAlnum (pyLowerStr name).data).dropWhile
            (fun c => c == '-')).take n).length := length_rstripDash_le _
      _ ≤ n := by rw [List.length_take]; omega
  split
  · rw [if_neg (by simp)]
    simp only [List.length_cons, List.length_take]
    omega
  · split
    · simp only [List.length_singleton]
      omega
    · exact hsn1

theorem object_name_intro (l : List Char) (h1 : 1 ≤ l.length) (h2 : l.length ≤ 63)
    (h3 : firstCharB isLowerAlpha l = true) (h4 : lastCharB isLowerAlnum l = true)
    (h5 : ∀ c ∈ l, isObjChar c = true) :
    is_valid_object_name (String.mk l) = true := by
  have hne : l.isEmpty = false := by
    cases l
    · simp at h1
    · rfl
  unfold is_valid_object_name _is_valid_general
  rw [if_neg, if_neg, if_neg, if_neg, if_neg]
  · simp only [Option.isSome_some, Bool.true_and, Bool.not_eq_true', Option.getD_some]
    unfold reFullMatchDollar
    simp [hne, List.all_eq_true.mpr h5]
  · simp only [Option.isSome_some, Bool.true_and, Bool.not_eq_true', Option.getD_some]
    show ¬(lastCharB isLowerAlnum (String.mk l).data = false)
    simp [show (String.mk l).data = l from rfl, h4]
  · simp only [Option.isSome_some, Bool.true_and, Bool.not_eq_true', Option.getD_some]
    show ¬(firstCharB isLowerAlpha (String.mk l).data = false)
    simp [show (String.mk l).data = l from rfl, h3]
  · simp only [truthyNat, Option.getD_some]
    show ¬((63 != 0) && decide ((String.mk l).length > 63)) = true
    simp only [Bool.and_eq_true, decide_eq_true_eq, not_and]
    intro _
    show ¬((String.mk l).length > 63)
    have : (String.mk l).length = l.length := rfl
    omega
  · simp only [truthyNat, Option.getD_some]
    show ¬((1 != 0) && decide ((String.mk l).length < 1)) = true
    simp only [Bool.and_eq_true, decide_eq_true_eq, not_and]
    intro _
    show ¬((String.mk l).length < 1)
    have : (String.mk l).length = l.length := rfl
    omega

theorem strip_and_hash_32 (name : String) :
    strip_and_hash name 32 =
      Except.ok (String.mk (_extract_core name 21 ++
        ('-' :: '-' :: '-' :: nameHashChars name))) := rfl

theorem strip_ok (name : String) :
    ∃ t, strip_and_hash name 32 = Except.ok t ∧
      is_valid_object_name t = true ∧ t.length ≤ 32 := by
  refine ⟨_, strip_and_hash_32 name, ?_, ?_⟩
  · apply object_name_intro
    · simp only [List.length_append, List.length_cons, length_nameHashChars]
      omega
    · have hc := extract_core_length name 21 (by omega)
      simp only [List.length_append, List.length_cons, length_nameHashChars]
      omega
    · apply firstCharB_append
      exact extract_core_head name 21
    · have hlen := length_nameHashChars name
      have hne : nameHashChars name ≠ [] := by
        intro h
        rw [h] at hlen
        simp at hlen
      have hlast : lastCharB isLowerAlnum (nameHashChars name) = true :=
        lastCharB_of_all _ _ hne
          (fun c hc => isLowerAlnum_of_isLowerHex (nameHashChars_hex name c hc))
      exact lastCharB_append _ _ _
        (lastCharB_append _ ['-', '-', '-'] _ hlast)
    · intro c hc
      rcases List.mem_append.mp hc with hc | hc
      · exact extract_core_obj name 21 c hc
      · rcases List.mem_cons.mp hc with rfl | hc
        · decide
        · rcases List.mem_cons.mp hc with rfl | hc
          · decide
          · rcases List.mem_cons.mp hc with rfl | hc
            · decide
            · exact isObjChar_of_isLowerAlnum
                (isLowerAlnum_of_isLowerHex (nameHashChars_hex name c hc))
  · show (String.mk (_extract_core name 21 ++
        ('-' :: '-' :: '-' :: nameHashChars name))).length ≤ 32
    have hc := extract_core_length name 21 (by omega)
    have hh := length_nameHashChars name
    show (_extract_core name 21 ++ ('-' :: '-' :: '-' :: nameHashChars name)).length ≤ 32
    simp only [List.length_append, List.length_cons]
    omega

theorem revert_aux_id (l : List Char) (h : ∀ c ∈ l, ¬ c = '-') :
    revert_escape_aux '-' l = Except.ok l := by
  induction l with
  | nil => rfl
  | cons c t ih =>
    have hc : (c == '-') = false := by
      have hcc := h c (by simp)
      simp [hcc]
    cases t with
    | nil => rfl
    | cons d t2 =>
      cases t2 with
      | nil => rfl
      | cons e t3 =>
        simp only [revert_escape_aux, hc, Bool.false_and, Bool.false_eq_true,
          if_false, ih (fun x hx => h x (List.mem_cons_of_mem c hx)), Except.map]

/-! ## Claim theorems -/

/-- Claim C1: the spec states that for marker-free text the decode of the
encode is the identity, and that decode must accumulate the consecutive
marker-hex groups of one multi-byte character.  The code instead decodes each
escaped byte in isolation: `escape` turns `é` (UTF-8 `C3 A9`) into `-C3-A9`,
and `revert_escape` then calls `bytes([0xC3]).decode("utf-8")`, which raises
`UnicodeDecodeError`, so the round trip raises instead of returning `é`. -/
theorem c1_multibyte_roundtrip_raises :
    escape "é" = Except.ok "-C3-A9" ∧
    Except.bind (escape "é") (fun e => revert_escape e '-') =
      Except.error "UnicodeDecodeError" := ⟨rfl, rfl⟩

/-- Claim C2: for every string, `safe_slug` with the default validity
predicate and default maximum length returns a string satisfying
`is_valid_object_name`. -/
theorem c2_safe_slug_object_name_valid (s : String) :
    ∃ t, safe_slug s = Except.ok t ∧ is_valid_object_name t = true := by
  unfold safe_slug
  split
  · rcases strip_ok s with ⟨t, ht1, ht2, _⟩
    exact ⟨t, ht1, ht2⟩
  · split
    · rename_i hv
      refine ⟨s, rfl, ?_⟩
      have hv2 : is_valid_default s = true ∧ lenWithin s none = true := by
        simpa using hv
      exact hv2.1
    · rcases strip_ok s with ⟨t, ht1, ht2, _⟩
      exact ⟨t, ht1, ht2⟩

/-- Claim C3: the spec states `is_old_schema (escape_slug u)` is true for
every raw name `u`.  For `u = "é"` the legacy encoder yields `-c3-a9`, and
`is_old_schema` returns `false` because `revert_escape` raises
`UnicodeDecodeError` on the lone byte `0xC3` (the exception is caught and
classified as the new scheme). -/
theorem c3_classifier_rejects_nonascii :
    escape_slug "é" = Except.ok "-c3-a9" ∧ is_old_schema "-c3-a9" = false := ⟨rfl, rfl⟩

/-- Claim C4: the spec states every escaped byte is emitted as the marker
followed by exactly two uppercase hex digits, including bytes below 0x10.
The code formats with `f"{byte:X}"` (no zero padding), so the newline
character U+000A (one UTF-8 byte 0x0A) is emitted as `-A` — marker plus a
single digit, 2 characters instead of 3. -/
theorem c4_low_byte_single_hex_digit :
    _escape_char '\n' '-' = "-A" ∧ ("-A" : String).data.length = 2 := ⟨rfl, rfl⟩

/-- Claim C5 counterexample: the claim says a valid name longer than the
default maximum of 32 must take the hash-fallback path.  The 33-character
valid name below is returned unchanged by `safe_slug` (the code default for
`max_length` is `None`, i.e. no length cap on the identity path), and it is
not the hash-fallback result, whose length is at most 32. -/
theorem c5_counterexample_long_valid_name :
    safe_slug "aaaaaaaaaaaaaaaaaaaaaaaaaaaaaaaaa" =
      Except.ok "aaaaaaaaaaaaaaaaaaaaaaaaaaaaaaaaa" ∧
    ("aaaaaaaaaaaaaaaaaaaaaaaaaaaaaaaaa" : String).length = 33 ∧
    is_valid_object_name "aaaaaaaaaaaaaaaaaaaaaaaaaaaaaaaaa" = true ∧
    hasInfix dashDash ("aaaaaaaaaaaaaaaaaaaaaaaaaaaaaaaaa" : String).data = false ∧
    strip_and_hash "aaaaaaaaaaaaaaaaaaaaaaaaaaaaaaaaa" 32 ≠
      Except.ok "aaaaaaaaaaaaaaaaaaaaaaaaaaaaaaaaa" := by
  refine ⟨rfl, rfl, rfl, rfl, ?_⟩
  intro hcontra
  rcases strip_ok "aaaaaaaaaaaaaaaaaaaaaaaaaaaaaaaaa" with ⟨t, h1, _, h3⟩
  rw [h1] at hcontra
  have ht : t = "aaaaaaaaaaaaaaaaaaaaaaaaaaaaaaaaa" := by
    injection hcontra
  rw [ht] at h3
  have h33 : ("aaaaaaaaaaaaaaaaaaaaaaaaaaaaaaaaa" : String).length = 33 := rfl
  omega

/-- Claim C5 amended: `safe_slug(name)` with default arguments returns `name`
unchanged exactly when `name` does not contain `"--"` and `is_valid_default
name` holds — there is no separate length cap (the code default `max_length`
is `None`, not 32; the only length bound is the 63 inside the validity
predicate); in every other case it returns `strip_and_hash name 32`. -/
theorem c5_amended_identity_iff_valid_no_dashes (name : String) :
    safe_slug name =
      (if hasInfix dashDash name.data || !is_valid_default name then
        strip_and_hash name 32
      else Except.ok name) := by
  unfold safe_slug
  cases h1 : hasInfix dashDash name.data
  · cases h2 : is_valid_default name
    · simp [h1, h2, lenWithin, orDefault32]
    · simp [h1, h2, lenWithin]
  · simp [h1, orDefault32]

/-- Claim C6: the spec (and the comment above the join in `strip_and_hash`)
state the fallback result contains exactly one `"---"` and the text after it
is exactly 8 lowercase hex characters.  For the input below, the `"x-"`
prefix step of `_extract_safe_name` re-truncates the core to a string ending
in `-`, so the joined result starts `x-0a0a0a0a0a0a0a0a0a----`: it contains
`"----"`, and the text after the first `"---"` is a hyphen followed by the
8 hex characters. -/
theorem c6_fallback_four_hyphens :
    Except.map (fun t => String.mk (t.data.take 24))
        (strip_and_hash "0a0a0a0a0a0a0a0a0a b" 32) =
      Except.ok "x-0a0a0a0a0a0a0a0a0a----" ∧
    Except.map (fun t => hasInfix ['-', '-', '-', '-'] t.data)
        (strip_and_hash "0a0a0a0a0a0a0a0a0a b" 32) =
      Except.ok true := ⟨rfl, rfl⟩

/-- Claim C7: the spec states that when the marker is in the safe set and
collisions are not allowed, `escape` signals a non-fatal warning and proceeds.
The module never imports `warnings`, so that branch raises `NameError` and
`escape` produces no output. -/
theorem c7_marker_in_safe_set_raises :
    escape "a" ['a', '-'] '-' false =
      Except.error "NameError: name warnings is not defined" := rfl

/-- Claim C8: with the force flag off, `process_subdir_name` issues no
filesystem mutation and computes exactly the plan of the force run on the
same state: the dry run equals the force run with its operation list
erased. -/
theorem c8_dry_run_same_plan_no_mutation (fs : List String) (name path : String) :
    process_subdir_name fs name path false =
      Except.map (fun r => (r.1, ([] : List FsOp)))
        (process_subdir_name fs name path true) := by
  unfold process_subdir_name
  split
  · cases hrev : revert_escape name '-' with
    | error e => rfl
    | ok user_name =>
      simp only [Except.bind]
      cases hslug : safe_slug user_name with
      | error e => rfl
      | ok new_name =>
        simp only [Except.bind]
        split
        · rfl
        · split
          · rfl
          · rfl
  · rfl

/-- Claim C9: the spec states `is_valid_label` returns a boolean for every
string.  It does return `True` for the empty string, but for any non-empty
string the source evaluates the undefined name `_alphanum` and raises
`NameError`. -/
theorem c9_label_raises_nameerror :
    is_valid_label "" = Except.ok true ∧
    is_valid_label "a" = Except.error "NameError: name _alphanum is not defined" :=
  ⟨rfl, rfl⟩

/-- Claim C10: `revert_escape` is the identity on every string that contains
no occurrence of the escape character. -/
theorem c10_revert_identity_on_marker_free (s : String)
    (h : ∀ c ∈ s.data, ¬ c = '-') : revert_escape s '-' = Except.ok s := by
  unfold revert_escape
  rw [revert_aux_id s.data h]
  rfl

/-- Claim C10 witness: the marker-free string `abc` decodes to itself. -/
theorem c10_witness :
    (∀ c ∈ ("abc" : String).data, ¬ c = '-') ∧
    revert_escape "abc" '-' = Except.ok "abc" :=
  ⟨by decide, c10_revert_identity_on_marker_free "abc" (by decide)⟩
